import Mathlib

/-!
Verification of the browser-client half of the Professor tutoring system.

The definitions below are a shallow embedding of the TypeScript sources:

* `frontend/src/hooks/useTutorSession.ts` — the zustand session store and its
  `_handleServerMessage` dispatch (the version that routes audio, strokes and
  board actions; lines cited by the claims).
* the `useWhiteboard` store (pending stroke batch, stroke queue, board
  actions, editor camera, `cancelStrokes`, `scrollBoard`).
* the PCM `AudioPlayer` (carry byte, gapless scheduling at 22050 Hz,
  `enqueue` / `stop`).
* the `useVoicePipeline` hook (microphone capture, `startListening` /
  `stopListening`, the `ondataavailable` gate on `adaSpeaking`).
* `backend/latex_renderer/server.mjs` — the MathJax HTTP microservice.

Binary payloads that travel base64-encoded on the wire are modelled as the
decoded byte lists (`List ℕ`, each entry a byte value): `atob`/`btoa` and
`charCodeAt` together are a bijection between base64 strings and byte
sequences, and none of the claims concern the base64 alphabet itself.
JavaScript numbers are modelled as `ℚ` (all arithmetic involved is exact),
integer-valued wire fields as `ℤ`.
-/

namespace Professor

/-- Tutor modes, from `types.ts` (`TutorMode`). -/
inductive TutorMode
  | listening
  | guiding
  | demonstrating
  | evaluating
deriving DecidableEq, Repr

/-- One point of a handwriting stroke, from `types.ts` (`StrokePoint`). -/
structure StrokePoint where
  x : ℚ
  y : ℚ
  pressure : ℚ
deriving DecidableEq, Repr

/-- One handwriting stroke, from `types.ts` (`Stroke`). -/
structure Stroke where
  points : List StrokePoint
  color : String
  width : ℚ
deriving DecidableEq, Repr

/-- A 2-D position, from `types.ts` (`Position`). -/
structure Position where
  x : ℚ
  y : ℚ
deriving DecidableEq, Repr

/-- A batch of strokes to animate, from `types.ts` (`StrokeData`). -/
structure StrokeData where
  strokes : List Stroke
  position : Position
  animation_speed : ℚ
deriving DecidableEq, Repr

/-- Content format of a write action, from `types.ts` (`ContentFormat`). -/
inductive ContentFormat
  | text
  | latex
deriving DecidableEq, Repr

/-- A rectangle, from `types.ts` (the `target_area` of an underline). -/
structure TargetArea where
  x : ℚ
  y : ℚ
  width : ℚ
  height : ℚ
deriving DecidableEq, Repr

/-- Board actions from the LLM, from `types.ts` (`BoardAction`). -/
inductive BoardAction
  | write (content : String) (format : ContentFormat) (position : Position) (color : String)
  | underline (target_area : TargetArea) (color : String)
  | clear
deriving DecidableEq, Repr

/-- Client → server messages, with the field shapes the current senders use:
`board_snapshot` as built by `onSnapshotReady` in the whiteboard store
(`image_base64`, `width`, `height`, optional `student_max_y`), `audio_data`
carrying the captured bytes. -/
inductive ClientMessage
  | session_start (subject : String)
  | transcript (text : String)
  | board_snapshot (image_base64 : String) (width : ℤ) (height : ℤ) (student_max_y : Option ℤ)
  | audio_start
  | audio_data (data : List ℕ)
  | audio_stop
deriving DecidableEq, Repr

/-- Server → client messages.  The first eight constructors are the members of
the TypeScript `ServerMessage` union in `types.ts`.  `state_update` and
`scroll_board` are wire messages named by the protocol table of the spec;
the TypeScript union does not list them, and since `websocket.ts` delivers
any `JSON.parse`d object to the handler unvalidated (a plain type cast),
they reach `_handleServerMessage` like any other tag and are covered by its
`default` branch.  They are included here so that the claims about them can
be stated. -/
inductive ServerMessage
  | connected (session_id : String) (message : String)
  | speech_text (text : String)
  | audio_chunk (data : List ℕ)
  | strokes (strokes : StrokeData)
  | board_action (action : BoardAction)
  | transcript_interim (text : String)
  | barge_in
  | error (message : String)
  | state_update (tutor_state : TutorMode) (wait_for_student : Bool)
  | scroll_board (scroll_by : ℤ)
deriving DecidableEq, Repr

/-! ### AudioPlayer (PCM version, `lib/audioPlayer.ts`)

The player parses 16-bit signed little-endian PCM at 22050 Hz.  Its mutable
fields `_carryByte`, `_nextStartTime`, `_playing` and `_activeSources` become
the state record below; a started `AudioBufferSourceNode` is represented by
the pair (scheduled start time, decoded samples). -/

/-- State of the singleton `AudioPlayer`. -/
structure AudioPlayerState where
  carryByte : Option ℕ
  nextStartTime : ℚ
  playing : Bool
  activeSources : List (ℚ × List ℚ)
deriving DecidableEq, Repr

/-- The player's initial state (fresh object: no carry byte, nothing
scheduled, not playing). -/
def AudioPlayer.init : AudioPlayerState :=
  { carryByte := none, nextStartTime := 0, playing := false, activeSources := [] }

/-- The signed 16-bit integer encoded little-endian by two bytes, as read by
`view.getInt16(i * 2, true)`. -/
def int16OfBytes (lo hi : ℕ) : ℤ :=
  let u : ℕ := lo + 256 * hi
  if u < 32768 then (u : ℤ) else (u : ℤ) - 65536

/-- `channelData[i] = view.getInt16(i * 2, true) / 32768` over the whole
byte buffer: consecutive byte pairs decoded to samples; a trailing odd byte
produces nothing. -/
def pcmSamples : List ℕ → List ℚ
  | lo :: hi :: rest => ((int16OfBytes lo hi : ℚ) / 32768) :: pcmSamples rest
  | _ => []

/-- Prepending the carry-over byte, from the first branch of `enqueue`. -/
def prependCarry : Option ℕ → List ℕ → List ℕ
  | some b, chunk => b :: chunk
  | none, chunk => chunk

/-- `if (raw.length % 2 !== 0) { this._carryByte = raw[raw.length - 1];
raw = raw.slice(0, raw.length - 1); }` — split a trailing odd byte off the
combined buffer. -/
def splitOddByte (raw0 : List ℕ) : List ℕ × Option ℕ :=
  if raw0.length % 2 = 1 then (raw0.dropLast, some (raw0.getLastD 0)) else (raw0, none)

/-- `AudioPlayer.enqueue`, with the decoded chunk bytes as input and
`ctx.currentTime` passed explicitly as `now`.  Returns the new player state
and the scheduled source (start time, samples), if any. -/
def AudioPlayer.enqueue (now : ℚ) (chunk : List ℕ) (s : AudioPlayerState) :
    AudioPlayerState × Option (ℚ × List ℚ) :=
  let raw0 := prependCarry s.carryByte chunk
  let rc := splitOddByte raw0
  let raw := rc.1
  let carry := rc.2
  if raw.length / 2 = 0 then
    ({ s with carryByte := carry }, none)
  else
    let nextStart0 := if s.playing then s.nextStartTime else now + 6 / 100
    let startTime := max (now + 1 / 100) nextStart0
    let samples := pcmSamples raw
    let dur := ((raw.length / 2 : ℕ) : ℚ) / 22050
    ({ carryByte := carry, nextStartTime := startTime + dur, playing := true,
       activeSources := s.activeSources ++ [(startTime, samples)] },
     some (startTime, samples))

/-- `AudioPlayer.stop`: cut all audio, clear the queue of active sources,
reset the carry byte and the schedule. -/
def AudioPlayer.stop (_s : AudioPlayerState) : AudioPlayerState :=
  { carryByte := none, nextStartTime := 0, playing := false, activeSources := [] }

/-! ### Whiteboard store (`useWhiteboard`) -/

/-- The tldraw editor handle held by the store: its camera and the camera
lock, the parts `scrollBoard` touches. -/
structure EditorState where
  cameraX : ℚ
  cameraY : ℚ
  cameraZ : ℚ
  cameraLocked : Bool
deriving DecidableEq, Repr

/-- State of the `useWhiteboard` zustand store. -/
structure WhiteboardState where
  pendingStrokes : Option StrokeData
  strokeQueue : List StrokeData
  pendingBoardActions : List BoardAction
  editor : Option EditorState
deriving DecidableEq, Repr

/-- `setIncomingStrokes`: if nothing is animating right now, start
immediately; otherwise enqueue. -/
def setIncomingStrokes (strokes : StrokeData) (s : WhiteboardState) : WhiteboardState :=
  match s.pendingStrokes with
  | none => { s with pendingStrokes := some strokes }
  | some _ => { s with strokeQueue := s.strokeQueue ++ [strokes] }

/-- `clearPendingStrokes`: when the current animation finishes, dequeue the
next stroke batch (`const [next, ...rest] = state.strokeQueue`). -/
def clearPendingStrokes (s : WhiteboardState) : WhiteboardState :=
  match s.strokeQueue with
  | [] => { s with pendingStrokes := none, strokeQueue := [] }
  | next :: rest => { s with pendingStrokes := some next, strokeQueue := rest }

/-- `addBoardAction`: append a board action for `Whiteboard.tsx` to process. -/
def addBoardAction (action : BoardAction) (s : WhiteboardState) : WhiteboardState :=
  { s with pendingBoardActions := s.pendingBoardActions ++ [action] }

/-- `cancelStrokes`: clear pending strokes and the queue. -/
def cancelStrokes (s : WhiteboardState) : WhiteboardState :=
  { s with pendingStrokes := none, strokeQueue := [] }

/-- `scrollBoard`: pan the tldraw camera down by `scrollBy` pixels
(`setCamera({ x: cam.x, y: cam.y - scrollBy, z: cam.z })`), re-locking the
camera afterwards; a no-op when no editor is mounted. -/
def scrollBoard (scrollBy : ℚ) (s : WhiteboardState) : WhiteboardState :=
  match s.editor with
  | none => s
  | some e =>
      { s with editor := some { e with cameraY := e.cameraY - scrollBy, cameraLocked := true } }

/-! ### Session store (`useTutorSession`) and the server-message handler -/

/-- Speaker of a conversation turn. -/
inductive Role
  | user
  | assistant
deriving DecidableEq, Repr

/-- One entry of `conversationHistory`. -/
structure ConversationTurn where
  role : Role
  content : String
deriving DecidableEq, Repr

/-- The client state the handler can touch: the `useTutorSession` store
fields together with the audio player singleton and the whiteboard store. -/
structure ClientState where
  sessionId : Option String
  tutorMode : TutorMode
  conversationHistory : List ConversationTurn
  isConnected : Bool
  adaSpeaking : Bool
  audio : AudioPlayerState
  board : WhiteboardState
deriving DecidableEq, Repr

/-- `_handleServerMessage`, the per-message dispatch of `useTutorSession`.
`now` is `ctx.currentTime` at the moment an `audio_chunk` is enqueued.
Message tags without a `case` (`state_update`, `scroll_board`) fall through
the `default` branch and leave the state unchanged. -/
def handleServerMessage (now : ℚ) (msg : ServerMessage) (c : ClientState) : ClientState :=
  match msg with
  | .connected _ _ => { c with isConnected := true }
  | .speech_text text =>
      { c with
        conversationHistory := c.conversationHistory ++ [⟨Role.assistant, text⟩],
        tutorMode := TutorMode.guiding }
  | .barge_in =>
      { c with audio := AudioPlayer.stop c.audio, adaSpeaking := false }
  | .audio_chunk data =>
      { c with adaSpeaking := true, audio := (AudioPlayer.enqueue now data c.audio).1 }
  | .strokes sd => { c with board := setIncomingStrokes sd c.board }
  | .board_action a => { c with board := addBoardAction a c.board }
  | .transcript_interim text =>
      { c with conversationHistory := c.conversationHistory ++ [⟨Role.user, text⟩] }
  | .error _ => c
  | .state_update _ _ => c
  | .scroll_board _ => c

/-! ### Voice pipeline (`useVoicePipeline`, MediaRecorder version) -/

/-- The hook's state: the `isListening` flag and the `recorderRef` /
`streamRef` refs.  The recorder and stream objects themselves are opaque;
they are represented by numeric handles. -/
structure VoicePipelineState where
  isListening : Bool
  recorderRef : Option ℕ
  streamRef : Option ℕ
deriving DecidableEq, Repr

/-- The hook's initial state: not listening, both refs null. -/
def VoicePipeline.init : VoicePipelineState :=
  { isListening := false, recorderRef := none, streamRef := none }

/-- `startListening`: guarded by `if (isListening || !isConnected) return`;
on success stores the media stream and recorder, sends `audio_start`, and
sets `isListening`.  `stream` and `recorder` are the handles of the objects
obtained from `getUserMedia` / `new MediaRecorder`. -/
def startListening (isConnected : Bool) (stream recorder : ℕ) (s : VoicePipelineState) :
    VoicePipelineState × List ClientMessage :=
  if s.isListening || !isConnected then (s, [])
  else
    ({ isListening := true, recorderRef := some recorder, streamRef := some stream },
     [ClientMessage.audio_start])

/-- `stopListening`: guarded by `if (!isListening) return`; stops the
recorder and tracks, nulls both refs, sends `audio_stop`, and clears
`isListening`. -/
def stopListening (s : VoicePipelineState) : VoicePipelineState × List ClientMessage :=
  if !s.isListening then (s, [])
  else
    ({ isListening := false, recorderRef := none, streamRef := none },
     [ClientMessage.audio_stop])

/-- `recorder.ondataavailable`: empty blobs are skipped, chunks captured
while Ada is speaking are dropped at the source, and every other chunk is
forwarded to the backend as an `audio_data` message. -/
def onDataAvailable (adaSpeaking : Bool) (bytes : List ℕ) : Option ClientMessage :=
  if bytes.length = 0 then none
  else if adaSpeaking then none
  else some (ClientMessage.audio_data bytes)

/-! ### Board snapshot path (`Whiteboard.tsx` / `onSnapshotReady`) -/

/-- `onSnapshotReady` of the whiteboard store: builds the `board_snapshot`
message, spreading `student_max_y` into the payload exactly when the
`studentMaxY` argument is defined. -/
def onSnapshotReady (imageBase64 : String) (width height : ℤ) (studentMaxY : Option ℤ) :
    ClientMessage :=
  ClientMessage.board_snapshot imageBase64 width height studentMaxY

/-- The `studentMaxY > 0 ? Math.ceil(studentMaxY) : undefined` argument that
`captureSnapshot` in `Whiteboard.tsx` passes to `onSnapshotReady`:
`studentMaxY` starts at 0 and is the maximum `maxY` of the student's shape
bounds, so it is positive exactly when a student extent was computed. -/
def snapshotStudentExtent (studentMaxY : ℚ) : Option ℤ :=
  if 0 < studentMaxY then some ⌈studentMaxY⌉ else none

/-! ### LaTeX renderer (`backend/latex_renderer/server.mjs`) -/

/-- The JSON request body of `POST /mathjax`.  `latex = none` models a body
whose `latex` field is missing or not a string (the code checks
`typeof req.body?.latex === "string"` and falls back to the empty string);
`display = none` models a missing `display` field. -/
structure MathjaxBody where
  latex : Option String
  display : Option Bool
deriving DecidableEq, Repr

/-- Response payloads the two routes can produce. -/
inductive RespBody
  | svg (text : String)
  | jsonError (message : String)
  | jsonStatusOk
deriving DecidableEq, Repr

/-- An HTTP response: status code, content type, payload. -/
structure HttpResponse where
  status : ℕ
  contentType : String
  body : RespBody
deriving DecidableEq, Repr

/-- JavaScript `String.prototype.trim`: strip leading and trailing
whitespace. -/
def jsTrim (s : String) : String :=
  ⟨((s.data.dropWhile Char.isWhitespace).reverse.dropWhile Char.isWhitespace).reverse⟩

/-- `typeof req.body?.latex === "string" ? req.body.latex.trim() : ""`. -/
def trimmedLatex (b : MathjaxBody) : String :=
  match b.latex with
  | some s => jsTrim s
  | none => ""

/-- `const display = req.body?.display !== false`. -/
def displayFlag (b : MathjaxBody) : Bool :=
  decide (b.display ≠ some false)

/-- The `POST /mathjax` route, parameterized by the MathJax conversion
`html.convert` (an external library call): `Except.ok` is a successful
conversion to SVG text, `Except.error` a thrown exception with its message. -/
def postMathjax (convert : String → Bool → Except String String) (b : MathjaxBody) :
    HttpResponse :=
  let latex := trimmedLatex b
  let display := displayFlag b
  if latex = "" then
    { status := 400, contentType := "application/json",
      body := RespBody.jsonError "Missing 'latex' string in request body." }
  else
    match convert latex display with
    | Except.ok svgText =>
        { status := 200, contentType := "image/svg+xml", body := RespBody.svg svgText }
    | Except.error message =>
        { status := 400, contentType := "application/json",
          body := RespBody.jsonError message }

/-- The `GET /health` route: `res.json({ status: "ok" })`. -/
def getHealth : HttpResponse :=
  { status := 200, contentType := "application/json", body := RespBody.jsonStatusOk }

/-! ### Harness definitions for the claims -/

/-- The bytes held by the carry slot (zero or one byte). -/
def carryList : Option ℕ → List ℕ
  | some b => [b]
  | none => []

/-- The samples of one scheduled source, or none. -/
def optSamples : Option (ℚ × List ℚ) → List ℚ
  | some src => src.2
  | none => []

/-- All samples of a list of scheduled sources, in schedule order. -/
def emittedSamples (out : List (ℚ × List ℚ)) : List ℚ :=
  (out.map Prod.snd).flatten

/-- Feed a sequence of chunks to `AudioPlayer.enqueue` one after the other
(`now i` being `ctx.currentTime` at the `i`-th call), collecting the
scheduled sources in order. -/
def runEnqueues (now : ℕ → ℚ) (i : ℕ) (chunks : List (List ℕ)) (s : AudioPlayerState) :
    AudioPlayerState × List (ℚ × List ℚ) :=
  match chunks with
  | [] => (s, [])
  | c :: cs =>
      let r := AudioPlayer.enqueue (now i) c s
      let rest := runEnqueues now (i + 1) cs r.1
      (rest.1, r.2.toList ++ rest.2)

/-- The stroke batches the whiteboard store currently holds, in service
order: the batch being animated (if any) followed by the queued batches. -/
def batches (s : WhiteboardState) : List StrokeData :=
  (match s.pendingStrokes with | some p => [p] | none => []) ++ s.strokeQueue

/-! ### Concrete example states (used by counterexamples and witnesses) -/

/-- A one-stroke batch. -/
def exBatchA : StrokeData :=
  { strokes := [{ points := [{ x := 0, y := 0, pressure := 1 }], color := "#FF0000", width := 2 }],
    position := { x := 0, y := 0 },
    animation_speed := 1 }

/-- A second, distinct batch. -/
def exBatchB : StrokeData :=
  { strokes := [], position := { x := 0, y := 100 }, animation_speed := 1 }

/-- A whiteboard state with one batch animating and one queued. -/
def exBoardBusy : WhiteboardState :=
  { pendingStrokes := some exBatchA, strokeQueue := [exBatchB],
    pendingBoardActions := [], editor := none }

/-- An empty whiteboard store. -/
def exBoardEmpty : WhiteboardState :=
  { pendingStrokes := none, strokeQueue := [], pendingBoardActions := [], editor := none }

/-- An editor whose camera sits at the origin, locked. -/
def exEditor : EditorState :=
  { cameraX := 0, cameraY := 0, cameraZ := 1, cameraLocked := true }

/-- A connected client in the middle of a tutor turn: audio scheduled and a
stroke batch animating with another queued. -/
def exClientBusy : ClientState :=
  { sessionId := some "s", tutorMode := TutorMode.guiding, conversationHistory := [],
    isConnected := true, adaSpeaking := true,
    audio := { carryByte := some 7, nextStartTime := 5, playing := true,
               activeSources := [(1, [0])] },
    board := exBoardBusy }

/-- An audio player mid-playback with the next chunk due at time 1. -/
def exPlayerW : AudioPlayerState :=
  { carryByte := none, nextStartTime := 1, playing := true, activeSources := [] }

/-- A freshly connected, idle client whose editor camera is at the origin. -/
def exClientIdle : ClientState :=
  { sessionId := some "s", tutorMode := TutorMode.listening, conversationHistory := [],
    isConnected := true, adaSpeaking := false,
    audio := AudioPlayer.init,
    board := { exBoardEmpty with editor := some exEditor } }

/-! ## Theorems -/

/-- C1: evaluation of the `barge_in` handler at a client in the middle of a
tutor turn.  The handler stops the audio player (active sources cleared,
carry byte reset — the full player state returns to its initial value) and
clears `adaSpeaking`, but it does not touch the whiteboard store: the
animating batch `pendingStrokes` and the queued batches `strokeQueue`
survive, so stroke animation continues.  The claim (and the doc comment on
`cancelStrokes` in the source) say both playback and stroke animation stop. -/
theorem c1_barge_in_leaves_strokes_animating :
    (handleServerMessage 0 ServerMessage.barge_in exClientBusy).audio = AudioPlayer.init ∧
    (handleServerMessage 0 ServerMessage.barge_in exClientBusy).adaSpeaking = false ∧
    (handleServerMessage 0 ServerMessage.barge_in exClientBusy).board.pendingStrokes
      = some exBatchA ∧
    (handleServerMessage 0 ServerMessage.barge_in exClientBusy).board.strokeQueue
      = [exBatchB] := by
  refine ⟨rfl, rfl, rfl, rfl⟩

/-- C2 counterexample: a non-empty microphone chunk captured while
`adaSpeaking` is true is dropped by `recorder.ondataavailable` — no
`audio_data` message is produced, refuting the claim that every such chunk
is still forwarded to the backend. -/
theorem c2_chunk_dropped_while_ada_speaking :
    onDataAvailable true [1, 2, 3] = none := rfl

/-- C2 (amended): chunks captured while Ada is speaking are dropped at the
source; a chunk is forwarded to the backend as `audio_data` exactly when it
is non-empty and `adaSpeaking` is false. -/
theorem c2_audio_gated_at_source (adaSpeaking : Bool) (bytes : List ℕ) :
    (adaSpeaking = true → onDataAvailable adaSpeaking bytes = none) ∧
    (onDataAvailable adaSpeaking bytes = some (ClientMessage.audio_data bytes) ↔
      bytes ≠ [] ∧ adaSpeaking = false) := by
  cases adaSpeaking <;> cases bytes <;> simp [onDataAvailable]

/-- C2 witness: the amended theorem applied at a concrete chunk. -/
theorem c2_audio_gated_at_source_witness :
    onDataAvailable true [1] = none :=
  (c2_audio_gated_at_source true [1]).1 rfl

/-- C3: handling `barge_in` is idempotent — for every client state (any
audio-player queue, active sources, carry byte, `adaSpeaking` flag),
processing two consecutive `barge_in` messages yields exactly the same
client state as processing one. -/
theorem c3_barge_in_idempotent (now1 now2 : ℚ) (c : ClientState) :
    handleServerMessage now2 ServerMessage.barge_in
        (handleServerMessage now1 ServerMessage.barge_in c) =
      handleServerMessage now1 ServerMessage.barge_in c := rfl

/-- C4 counterexample: a listening client receives
`state_update tutor_state=demonstrating`; its tutor mode does not become
`demonstrating` (the handler has no `state_update` case), refuting the
claim. -/
theorem c4_state_update_does_not_change_mode :
    ¬ (handleServerMessage 0 (ServerMessage.state_update TutorMode.demonstrating true)
        exClientIdle).tutorMode = TutorMode.demonstrating := by decide

/-- C4 (amended): a `state_update` message is ignored by the client — it
falls through the handler's `default` branch and leaves the whole client
state (tutor mode included) unchanged, for every `tutor_state` value. -/
theorem c4_state_update_ignored (now : ℚ) (ts : TutorMode) (wfs : Bool) (c : ClientState) :
    handleServerMessage now (ServerMessage.state_update ts wfs) c = c := rfl

/-- C5: evaluation at a connected client whose editor camera is at the
origin.  A `scroll_board` message with `scroll_by = 100` leaves the client
(camera included) completely unchanged, because the handler has no
`scroll_board` case — even though the whiteboard store's `scrollBoard`
action, which its doc comment says is called when a `scroll_board` message
arrives, would have moved the camera y from 0 to -100. -/
theorem c5_scroll_board_message_ignored :
    handleServerMessage 0 (ServerMessage.scroll_board 100) exClientIdle = exClientIdle ∧
    (scrollBoard 100 exClientIdle.board).editor =
      some { cameraX := 0, cameraY := -100, cameraZ := 1, cameraLocked := true } := by
  refine ⟨rfl, ?_⟩
  simp only [scrollBoard, exClientIdle, exBoardEmpty, exEditor]
  norm_num

/-- C7: an `audio_start` followed by an `audio_stop` with no intervening
`audio_data` is a round trip: starting audio capture from the initial
voice-pipeline state and then stopping it returns the state to exactly the
state of never having started (`isListening` false, recorder and stream
refs empty), whether or not the session was connected. -/
theorem c7_audio_start_stop_roundtrip (isConnected : Bool) (stream recorder : ℕ) :
    (stopListening (startListening isConnected stream recorder VoicePipeline.init).1).1 =
      VoicePipeline.init := by
  cases isConnected <;> rfl

/-- C8: every `board_snapshot` message built by `onSnapshotReady` carries
`image_base64`, `width` and `height` as passed, and carries `student_max_y`
exactly when `captureSnapshot` computed a student extent (a positive
maximal y over the student's shapes). -/
theorem c8_board_snapshot_fields (img : String) (w h : ℤ) (yMax : ℚ) :
    onSnapshotReady img w h (snapshotStudentExtent yMax) =
      ClientMessage.board_snapshot img w h (snapshotStudentExtent yMax) ∧
    (snapshotStudentExtent yMax ≠ none ↔ 0 < yMax) := by
  refine ⟨rfl, ?_⟩
  unfold snapshotStudentExtent
  by_cases hy : 0 < yMax <;> simp [hy]

/-- C10: the whiteboard store serves stroke batches FIFO and loses none:
`setIncomingStrokes` starts the batch immediately exactly when nothing is
pending and otherwise appends it to `strokeQueue` (in both cases appending
it to the end of the service order), and `clearPendingStrokes` promotes the
head of the queue, or clears the pending slot when the queue is empty, so
that exactly the finished batch leaves and the rest keep their order. -/
theorem c10_stroke_queue_fifo (b : StrokeData) (s : WhiteboardState) :
    (s.pendingStrokes = none →
        setIncomingStrokes b s = { s with pendingStrokes := some b }) ∧
    (s.pendingStrokes ≠ none →
        setIncomingStrokes b s = { s with strokeQueue := s.strokeQueue ++ [b] }) ∧
    (s.pendingStrokes ≠ none →
        batches (setIncomingStrokes b s) = batches s ++ [b]) ∧
    (s.pendingStrokes = none → s.strokeQueue = [] →
        batches (setIncomingStrokes b s) = batches s ++ [b]) ∧
    (s.strokeQueue = [] → clearPendingStrokes s = { s with pendingStrokes := none }) ∧
    (∀ next rest, s.strokeQueue = next :: rest →
        clearPendingStrokes s = { s with pendingStrokes := some next, strokeQueue := rest }) ∧
    (∀ p, s.pendingStrokes = some p →
        batches (clearPendingStrokes s) = s.strokeQueue) := by
  obtain ⟨ps, q, pba, ed⟩ := s
  refine ⟨?_, ?_, ?_, ?_, ?_, ?_, ?_⟩
  · intro h
    cases h
    simp [setIncomingStrokes]
  · intro h
    cases ps with
    | none => exact absurd rfl h
    | some p => simp [setIncomingStrokes]
  · intro h
    cases ps with
    | none => exact absurd rfl h
    | some p => simp [setIncomingStrokes, batches]
  · intro h1 h2
    cases h1
    cases h2
    simp [setIncomingStrokes, batches]
  · intro h
    cases h
    cases ps <;> simp [clearPendingStrokes]
  · intro next rest h
    cases h
    simp [clearPendingStrokes]
  · intro p h
    cases h
    cases q <;> simp [clearPendingStrokes, batches]

/-- C10 witness: the FIFO theorem applied at concrete store states — an
empty store starts a batch immediately, and a busy store's
`clearPendingStrokes` keeps exactly the queued batches. -/
theorem c10_stroke_queue_fifo_witness :
    setIncomingStrokes exBatchB exBoardEmpty =
      { exBoardEmpty with pendingStrokes := some exBatchB } ∧
    batches (clearPendingStrokes exBoardBusy) = exBoardBusy.strokeQueue :=
  ⟨(c10_stroke_queue_fifo exBatchB exBoardEmpty).1 rfl,
   (c10_stroke_queue_fifo exBatchB exBoardBusy).2.2.2.2.2.2 exBatchA rfl⟩

/-- C6: the LaTeX renderer contract.  For every conversion backend and
request body: a `latex` field that is non-empty after trimming and converts
successfully yields status 200 with content type `image/svg+xml` carrying
the rendered SVG; the response has status 400 if and only if `latex` is
missing (or not a string) or empty after trimming, or the MathJax
conversion throws; every 400 response carries a JSON `error` message; and
`GET /health` answers 200 with the `status: ok` JSON object. -/
theorem c6_latex_renderer_contract (convert : String → Bool → Except String String)
    (b : MathjaxBody) :
    (∀ svgText, trimmedLatex b ≠ "" →
        convert (trimmedLatex b) (displayFlag b) = Except.ok svgText →
        postMathjax convert b =
          { status := 200, contentType := "image/svg+xml", body := RespBody.svg svgText }) ∧
    ((postMathjax convert b).status = 400 ↔
        trimmedLatex b = "" ∨
          ∃ e, convert (trimmedLatex b) (displayFlag b) = Except.error e) ∧
    ((postMathjax convert b).status = 400 →
        ∃ e, (postMathjax convert b).body = RespBody.jsonError e) ∧
    getHealth = { status := 200, contentType := "application/json",
                  body := RespBody.jsonStatusOk } := by
  by_cases hl : trimmedLatex b = ""
  · refine ⟨fun svgText hne _ => absurd hl hne, ?_, ?_, rfl⟩
    · simp [postMathjax, hl]
    · intro _
      exact ⟨"Missing 'latex' string in request body.", by simp [postMathjax, hl]⟩
  · cases hc : convert (trimmedLatex b) (displayFlag b) with
    | ok svgText =>
        refine ⟨?_, ?_, ?_, rfl⟩
        · intro t _ ht
          injection ht with h
          subst h
          simp [postMathjax, hl, hc]
        · simp [postMathjax, hl, hc]
        · simp [postMathjax, hl, hc]
    | error e =>
        refine ⟨?_, ?_, ?_, rfl⟩
        · intro t _ ht
          exact absurd ht (by simp)
        · simp [postMathjax, hl, hc]
        · intro _
          exact ⟨e, by simp [postMathjax, hl, hc]⟩

/-- C6 witness: the contract applied to a concrete conversion backend and a
body whose `latex` trims to a non-empty string. -/
theorem c6_latex_renderer_contract_witness :
    postMathjax (fun s _ => Except.ok s) { latex := some " x ", display := none } =
      { status := 200, contentType := "image/svg+xml", body := RespBody.svg "x" } :=
  (c6_latex_renderer_contract (fun s _ => Except.ok s)
      { latex := some " x ", display := none }).1 "x" (by decide) (by rfl)

/-- Decoding distributes over append when the first part holds whole
16-bit samples (even length). -/
theorem pcmSamples_append : ∀ (l l2 : List ℕ), l.length % 2 = 0 →
    pcmSamples (l ++ l2) = pcmSamples l ++ pcmSamples l2
  | [], _, _ => by simp [pcmSamples]
  | [_], _, h => by simp at h
  | a :: b :: rest, l2, h => by
      have hr : rest.length % 2 = 0 := by
        simp only [List.length_cons] at h
        omega
      have ih := pcmSamples_append rest l2 hr
      simp [pcmSamples, ih]

/-- A list's samples have one entry per byte pair. -/
theorem pcmSamples_length : ∀ (l : List ℕ), (pcmSamples l).length = l.length / 2
  | [] => rfl
  | [_] => by simp [pcmSamples]
  | _ :: _ :: rest => by
      simp only [pcmSamples, List.length_cons, pcmSamples_length rest]
      omega

/-- The carry slot holds fewer bytes than a sample, so it decodes to
nothing on its own. -/
theorem pcmSamples_carryList (o : Option ℕ) : pcmSamples (carryList o) = [] := by
  cases o <;> rfl

/-- Dropping the last element and re-appending it is the identity on
non-empty lists. -/
theorem dropLast_append_getLastD (l : List ℕ) (h : l ≠ []) :
    l.dropLast ++ [l.getLastD 0] = l := by
  rw [List.getLastD_eq_getLast?, List.getLast?_eq_getLast l h, Option.getD_some]
  exact List.dropLast_append_getLast h

/-- `splitOddByte` loses no byte and leaves an even-length buffer. -/
theorem splitOddByte_spec (l : List ℕ) :
    (splitOddByte l).1 ++ carryList (splitOddByte l).2 = l ∧
      (splitOddByte l).1.length % 2 = 0 := by
  by_cases h : l.length % 2 = 1
  · have hne : l ≠ [] := by
      intro he
      subst he
      simp at h
    refine ⟨?_, ?_⟩
    · simpa [splitOddByte, h, carryList] using dropLast_append_getLastD l hne
    · simp only [splitOddByte, h, if_pos, List.length_dropLast]
      omega
  · refine ⟨?_, ?_⟩
    · simp [splitOddByte, h, carryList]
    · simp only [splitOddByte, h, if_neg, not_false_iff]
      omega

/-- `prependCarry` is an append of the carry slot's bytes. -/
theorem prependCarry_eq_append (o : Option ℕ) (l : List ℕ) :
    prependCarry o l = carryList o ++ l := by
  cases o <;> rfl

/-- What `enqueue` emits and carries: the samples of the even part of
carry-plus-chunk, and its odd tail byte. -/
theorem enqueue_components (now : ℚ) (chunk : List ℕ) (s : AudioPlayerState) :
    (AudioPlayer.enqueue now chunk s).1.carryByte =
      (splitOddByte (prependCarry s.carryByte chunk)).2 ∧
    optSamples (AudioPlayer.enqueue now chunk s).2 =
      pcmSamples (splitOddByte (prependCarry s.carryByte chunk)).1 := by
  by_cases h0 : (splitOddByte (prependCarry s.carryByte chunk)).1.length / 2 = 0
  · have heven := (splitOddByte_spec (prependCarry s.carryByte chunk)).2
    have hnil : (splitOddByte (prependCarry s.carryByte chunk)).1 = [] := by
      have := (splitOddByte (prependCarry s.carryByte chunk)).1.length
      apply List.length_eq_zero.mp
      omega
    refine ⟨?_, ?_⟩
    · simp [AudioPlayer.enqueue, h0]
    · simp [AudioPlayer.enqueue, h0, optSamples, hnil, pcmSamples]
  · refine ⟨?_, ?_⟩
    · simp [AudioPlayer.enqueue, h0]
    · simp [AudioPlayer.enqueue, h0, optSamples]

/-- One `enqueue` step, followed by decoding the new carry together with
any future bytes, decodes exactly the old carry, the chunk, and those
future bytes. -/
theorem enqueue_step (now : ℚ) (chunk : List ℕ) (s : AudioPlayerState) (tail : List ℕ) :
    optSamples (AudioPlayer.enqueue now chunk s).2 ++
      pcmSamples (carryList (AudioPlayer.enqueue now chunk s).1.carryByte ++ tail) =
    pcmSamples (carryList s.carryByte ++ chunk ++ tail) := by
  obtain ⟨hsplit, heven⟩ := splitOddByte_spec (prependCarry s.carryByte chunk)
  obtain ⟨hc, ho⟩ := enqueue_components now chunk s
  rw [ho, hc, ← pcmSamples_append _ _ heven, ← List.append_assoc, hsplit,
    prependCarry_eq_append]

/-- The emitted samples of one scheduled source. -/
theorem emittedSamples_toList (o : Option (ℚ × List ℚ)) :
    emittedSamples o.toList = optSamples o := by
  cases o <;> simp [emittedSamples, optSamples]

/-- Feeding any chunk sequence emits, together with what is still in the
carry slot, exactly the samples of the initial carry plus all bytes fed. -/
theorem runEnqueues_emitted : ∀ (chunks : List (List ℕ)) (now : ℕ → ℚ) (i : ℕ)
    (s : AudioPlayerState),
    emittedSamples (runEnqueues now i chunks s).2 ++
      pcmSamples (carryList (runEnqueues now i chunks s).1.carryByte) =
    pcmSamples (carryList s.carryByte ++ chunks.flatten)
  | [], _, _, s => by simp [runEnqueues, emittedSamples]
  | c :: cs, now, i, s => by
      have ih := runEnqueues_emitted cs now (i + 1) (AudioPlayer.enqueue (now i) c s).1
      have hstep := enqueue_step (now i) c s cs.flatten
      simp only [runEnqueues, emittedSamples, List.map_append, List.flatten_append,
        List.flatten_cons]
      rw [← emittedSamples_toList (AudioPlayer.enqueue (now i) c s).2] at hstep
      calc emittedSamples (AudioPlayer.enqueue (now i) c s).2.toList ++
            emittedSamples (runEnqueues now (i + 1) cs (AudioPlayer.enqueue (now i) c s).1).2 ++
            pcmSamples (carryList
              (runEnqueues now (i + 1) cs (AudioPlayer.enqueue (now i) c s).1).1.carryByte)
          = emittedSamples (AudioPlayer.enqueue (now i) c s).2.toList ++
            pcmSamples (carryList (AudioPlayer.enqueue (now i) c s).1.carryByte ++
              cs.flatten) := by
            rw [List.append_assoc, ih]
        _ = pcmSamples (carryList s.carryByte ++ c ++ cs.flatten) := hstep
        _ = pcmSamples (carryList s.carryByte ++ (c ++ cs.flatten)) := by
            rw [List.append_assoc]

/-- C9: PCM decoding in the audio player is chunk-split independent.  For
every partition of a byte stream into chunks (odd-length chunks included),
the concatenation of the samples scheduled by the successive `enqueue`
calls equals the samples of the whole stream — the carry byte preserves
16-bit alignment across chunk boundaries.  Each decoded sample is the
little-endian int16 of its byte pair divided by 32768, and while playback
keeps up (the next scheduled time is not in the past), each newly enqueued
chunk is scheduled exactly at the end of the previous one, at 22050
samples per second. -/
theorem c9_pcm_chunk_split_independent (chunks : List (List ℕ)) (now : ℕ → ℚ) :
    emittedSamples (runEnqueues now 0 chunks AudioPlayer.init).2 =
      pcmSamples chunks.flatten ∧
    (∀ lo hi rest, pcmSamples (lo :: hi :: rest) =
        ((int16OfBytes lo hi : ℚ) / 32768) :: pcmSamples rest) ∧
    (∀ (t : ℚ) (chunk : List ℕ) (s : AudioPlayerState) (start : ℚ) (samples : List ℚ),
        s.playing = true → t + 1 / 100 ≤ s.nextStartTime →
        (AudioPlayer.enqueue t chunk s).2 = some (start, samples) →
        start = s.nextStartTime ∧
        (AudioPlayer.enqueue t chunk s).1.nextStartTime =
          start + (samples.length : ℚ) / 22050) := by
  refine ⟨?_, fun lo hi rest => rfl, ?_⟩
  · have h := runEnqueues_emitted chunks now 0 AudioPlayer.init
    rw [pcmSamples_carryList, List.append_nil] at h
    exact h
  · intro t chunk s start samples hp hle hout
    by_cases h0 : (splitOddByte (prependCarry s.carryByte chunk)).1.length / 2 = 0
    · simp [AudioPlayer.enqueue, h0] at hout
    · have hmax : max (t + 1 / 100) s.nextStartTime = s.nextStartTime := max_eq_right hle
      simp only [AudioPlayer.enqueue, h0, if_neg, not_false_iff, hp, if_pos,
        Option.some.injEq, Prod.mk.injEq] at hout
      obtain ⟨h1, h2⟩ := hout
      rw [hmax] at h1
      refine ⟨h1.symm, ?_⟩
      simp only [AudioPlayer.enqueue, h0, if_neg, not_false_iff, hp, if_pos, hmax]
      rw [← h1, ← h2, pcmSamples_length]

/-- C9 witness: the theorem applied to a concrete partition (an odd chunk
followed by the rest) and to a concrete mid-playback enqueue. -/
theorem c9_pcm_chunk_split_independent_witness :
    emittedSamples (runEnqueues (fun _ => 0) 0 [[1], [2, 3]] AudioPlayer.init).2 =
      pcmSamples (([[1], [2, 3]] : List (List ℕ)).flatten) ∧
    (1 : ℚ) = exPlayerW.nextStartTime ∧
    (AudioPlayer.enqueue 0 [0, 0] exPlayerW).1.nextStartTime =
      1 + (([(0 : ℚ)].length : ℚ)) / 22050 := by
  have hout : (AudioPlayer.enqueue 0 [0, 0] exPlayerW).2 = some (1, [(0 : ℚ)]) := by
    norm_num [AudioPlayer.enqueue, exPlayerW, splitOddByte, prependCarry, pcmSamples,
      int16OfBytes, max_eq_right]
  have h := c9_pcm_chunk_split_independent [[1], [2, 3]] (fun _ => 0)
  have h3 := h.2.2 0 [0, 0] exPlayerW 1 [(0 : ℚ)] rfl (by norm_num [exPlayerW]) hout
  exact ⟨h.1, h3.1, h3.2⟩

end Professor
